import Mathlib

/-!
Verification development for the animation interpolation engine
(src/client-animations.ts) and the server tick scheduler (src/server-game.ts).

The source is JavaScript/TypeScript, so all arithmetic is IEEE double
arithmetic.  The computations at issue are exact on small rationals, but the
engine's control flow genuinely reaches the special values (division by zero
produces Infinity or NaN, which then propagates through comparisons and
linear interpolation), so numbers are embedded as `JSNum`: an exact rational
together with the three special values `inf`, `ninf` (negative infinity) and
`nan`.  Rounding of doubles is not modelled; every claim checked here is
about exact small-magnitude arithmetic, selection and clamping, where double
and rational arithmetic agree.

JavaScript exceptions (reading a property of `undefined` raises a TypeError)
are embedded with `Except Unit`.
-/

/-- Semantic domain for JavaScript numbers: an exact rational, positive
infinity, negative infinity, or NaN.  Negative zero is identified with zero:
in every expression of the embedded code the zero denominators arise as
`x - x` of finite values, which is `+0` in IEEE arithmetic. -/
inductive JSNum where
  | num (q : ℚ)
  | inf
  | ninf
  | nan
deriving DecidableEq, Repr

namespace JSNum

/-- JavaScript addition. -/
def add : JSNum → JSNum → JSNum
  | nan, _ => nan
  | _, nan => nan
  | num a, num b => num (a + b)
  | inf, ninf => nan
  | ninf, inf => nan
  | inf, _ => inf
  | _, inf => inf
  | ninf, _ => ninf
  | _, ninf => ninf

/-- JavaScript negation. -/
def neg : JSNum → JSNum
  | nan => nan
  | inf => ninf
  | ninf => inf
  | num a => num (-a)

/-- JavaScript subtraction (`a - b = a + (-b)` in IEEE arithmetic). -/
def sub (a b : JSNum) : JSNum := a.add b.neg

/-- JavaScript multiplication. -/
def mul : JSNum → JSNum → JSNum
  | nan, _ => nan
  | _, nan => nan
  | num a, num b => num (a * b)
  | num a, inf => if a = 0 then nan else if 0 < a then inf else ninf
  | inf, num a => if a = 0 then nan else if 0 < a then inf else ninf
  | num a, ninf => if a = 0 then nan else if 0 < a then ninf else inf
  | ninf, num a => if a = 0 then nan else if 0 < a then ninf else inf
  | inf, inf => inf
  | inf, ninf => ninf
  | ninf, inf => ninf
  | ninf, ninf => inf

/-- JavaScript division.  Division of a nonzero finite number by (positive)
zero yields a signed infinity; `0 / 0` yields NaN. -/
def div : JSNum → JSNum → JSNum
  | nan, _ => nan
  | _, nan => nan
  | num a, num b =>
      if b = 0 then (if a = 0 then nan else if 0 < a then inf else ninf)
      else num (a / b)
  | num _, inf => num 0
  | num _, ninf => num 0
  | inf, num b => if b < 0 then ninf else inf
  | ninf, num b => if b < 0 then inf else ninf
  | inf, _ => nan
  | ninf, _ => nan

/-- JavaScript strict greater-than: any comparison involving NaN is false. -/
def gtb : JSNum → JSNum → Bool
  | nan, _ => false
  | _, nan => false
  | num a, num b => decide (b < a)
  | num _, inf => false
  | num _, ninf => true
  | inf, inf => false
  | inf, _ => true
  | ninf, _ => false

/-- JavaScript greater-or-equal: any comparison involving NaN is false. -/
def geb : JSNum → JSNum → Bool
  | nan, _ => false
  | _, nan => false
  | num a, num b => decide (b ≤ a)
  | num _, inf => false
  | num _, ninf => true
  | inf, _ => true
  | ninf, ninf => true
  | ninf, _ => false

@[simp] theorem add_num_num (a b : ℚ) : (num a).add (num b) = num (a + b) := rfl

@[simp] theorem sub_num_num (a b : ℚ) : (num a).sub (num b) = num (a - b) := by
  simp [sub, neg, add, sub_eq_add_neg]

@[simp] theorem mul_num_num (a b : ℚ) : (num a).mul (num b) = num (a * b) := rfl

@[simp] theorem add_num_nan (a : ℚ) : (num a).add nan = nan := rfl

@[simp] theorem sub_num_nan (a : ℚ) : (num a).sub nan = nan := rfl

theorem div_num_num_of_ne (a b : ℚ) (h : b ≠ 0) :
    (num a).div (num b) = num (a / b) := by
  simp [div, h]

@[simp] theorem gtb_num_num (a b : ℚ) : (num a).gtb (num b) = decide (b < a) := rfl

@[simp] theorem geb_num_num (a b : ℚ) : (num a).geb (num b) = decide (b ≤ a) := rfl

@[simp] theorem nan_geb (a : JSNum) : nan.geb a = false := by cases a <;> rfl

@[simp] theorem nan_gtb (a : JSNum) : nan.gtb a = false := by cases a <;> rfl

end JSNum

/-!
## Data model

`types/types.ts` and the static keyframe module `animations.ts` are not part
of the provided sources; their shapes are reconstructed from how
`src/client-animations.ts` uses them and from the specification.
-/

/-- Modelled from the spec: `AnimationDescriptor` / `SupersededAnimationDescriptor`
(`types/types.ts` is not among the sources).  An animation event carries a
name, a creation timestamp and a duration in milliseconds; a superseded
("old") descriptor additionally carries the cancellation timestamp
`canceledAt`.  A live descriptor has `canceledAt = none` (the field is
`undefined` in JavaScript).  Timestamps produced by `Date.now()` are finite
integers, embedded as rationals. -/
structure Animation where
  name : String
  createdAt : ℚ
  duration : ℚ
  canceledAt : Option ℚ := none
deriving DecidableEq, Repr

/-- One body part's transform: the `{ x, y, rotation }` record
(`AnimationDataPart` in the source).  Fields are `JSNum` because computed
transforms can carry special values. -/
structure AnimationDataPart where
  x : JSNum
  y : JSNum
  rotation : JSNum
deriving DecidableEq, Repr

/-- A keyframe: mapping from body-part identifier to its target transform,
embedded as an association list (JavaScript objects have unique keys; lookup
is first-match). -/
abbrev PartFrame := List (String × AnimationDataPart)

/-- Modelled from the spec: a keyframe table (`AnimationData`) for one
animation name, an ordered mapping from percentage key to a `PartFrame`, in
the iteration order of `Object.keys` (ascending for the integer keys the
tables use).  The static `animations.ts` module is not among the sources, so
tables are universally quantified data in the theorems below. -/
abbrev AnimationData := List (ℚ × PartFrame)

/-- Association-list lookup by part name: `frame[returnKey]`. -/
def lookupPart (fr : PartFrame) (rk : String) : Option AnimationDataPart :=
  (fr.find? (fun e => decide (e.1 = rk))).map (fun e => e.2)

/-- Keyframe lookup by percentage key: `animationData[key]` for a finite key. -/
def lookupFrame (d : AnimationData) (k : ℚ) : Option PartFrame :=
  (d.find? (fun e => decide (e.1 = k))).map (fun e => e.2)

/-- The percentage keys of a table, in iteration order (`Object.keys`). -/
def keysOf (d : AnimationData) : List ℚ := d.map (fun e => e.1)

/-- The entry for part `rk` at percentage key `k`:
`animationData[k] && animationData[k][rk]`. -/
def partEntry (d : AnimationData) (k : ℚ) (rk : String) : Option AnimationDataPart :=
  (lookupFrame d k).bind (fun fr => lookupPart fr rk)

/-- The entry for part `rk` at a possibly non-finite key (indexing a
JavaScript object with `Infinity` or `NaN` looks up the strings
`"Infinity"`/`"NaN"`, absent from a numeric-keyed table). -/
def partEntryJS (d : AnimationData) (k : JSNum) (rk : String) : Option AnimationDataPart :=
  match k with
  | .num q => partEntry d q rk
  | _ => none

/-- The all-zero transform `emptyValues` (src/client-animations.ts:23). -/
def emptyValues : AnimationDataPart := ⟨.num 0, .num 0, .num 0⟩

/-!
## Progress resolver and crossfade guard (src/client-animations.ts)

`Date.now()` is threaded through every function as an explicit parameter
`now` (the reference time of the render call).
-/

/-- Result record of `getAnimationKeys`: the bracketing keyframe keys and the
resolved progress.  `fromKey` is always a finite number in the source (it is
initialised to `0` and only ever overwritten with table keys); `toKey` is
initialised to `Number(keys[0])`, which is NaN for an empty table. -/
structure AnimationKeys where
  fromKey : ℚ
  toKey : JSNum
  progress : JSNum
deriving DecidableEq, Repr

/-- `isOldAnimationCanceled` (src/client-animations.ts:84-90): absent
previous animation gives `false`; otherwise the previous animation's natural
end is compared against the current instant:
`Date.now() - oldAnimation.createdAt - oldAnimation.duration < 0`. -/
def isOldAnimationCanceled (now : ℚ) : Option Animation → Bool
  | none => false
  | some o => decide (now - o.createdAt - o.duration < 0)

/-- `calculateProgressBetweenKeys` (src/client-animations.ts:92-101):
`(progress - from) / (to - from)`, clamped above at 1 and nowhere else.
There is no guard on `to - from = 0`. -/
def calculateProgressBetweenKeys (fromKey : ℚ) (toKey : JSNum) (progress : JSNum) : JSNum :=
  let diff := toKey.sub (.num fromKey)
  let progressBetween := (progress.sub (.num fromKey)).div diff
  if progressBetween.gtb (.num 1) then .num 1 else progressBetween

/-- The `timeElapsed` immediately-invoked closure inside `getAnimationKeys`
(src/client-animations.ts:112-118): for the old animation the freeze point
`canceledAt - createdAt`; a live descriptor uses `Date.now() - createdAt`.
Reading `canceledAt` off a descriptor that lacks it gives `undefined`, and
`undefined - x` is NaN. -/
def timeElapsedOf (now : ℚ) (isOld : Bool) (a : Animation) : JSNum :=
  match isOld with
  | true =>
      match a.canceledAt with
      | some c => .num (c - a.createdAt)
      | none => .nan
  | false => .num (now - a.createdAt)

/-- The clamp `if (progress > 100) progress = 100`
(src/client-animations.ts:121).  Note there is no lower clamp. -/
def clamp100 (p : JSNum) : JSNum := if p.gtb (.num 100) then .num 100 else p

/-- The progress computation of `getAnimationKeys`
(src/client-animations.ts:120-121): `(timeElapsed / duration) * 100`,
clamped above at 100. -/
def resolveProgress (now : ℚ) (isOld : Bool) (a : Animation) : JSNum :=
  clamp100 (((timeElapsedOf now isOld a).div (.num a.duration)).mul (.num 100))

/-- The value `keys[keyIndex + 1]` falling back to `100`
(src/client-animations.ts:130-134), applied to the keys remaining after the
current one. -/
def headOr100 : List ℚ → JSNum
  | k :: _ => .num k
  | [] => .num 100

/-- The `keys.forEach` bracketing loop of `getAnimationKeys`
(src/client-animations.ts:127-136), with the mutable `from`/`to` slots as
accumulator: whenever `progress >= key`, `from` becomes that key and `to`
becomes the following key, or `100` when that key is the last. -/
def bracketGo (progress : JSNum) : List ℚ → ℚ → JSNum → ℚ × JSNum
  | [], f, t => (f, t)
  | k :: ks, f, t =>
      if progress.geb (.num k) then bracketGo progress ks k (headOr100 ks)
      else bracketGo progress ks f t

/-- `getAnimationKeys` (src/client-animations.ts:103-139): absent animation
or absent keyframe table gives the inert `{from: 0, to: 0, progress: 0}`;
otherwise progress is `timeElapsed / duration * 100` clamped above at 100,
and the bracketing loop runs over `Object.keys(animationData)` starting from
`from = 0`, `to = Number(keys[0])`. -/
def getAnimationKeys (now : ℚ) (animation : Option Animation)
    (animationData : Option AnimationData) (isOld : Bool) : AnimationKeys :=
  match animation, animationData with
  | some a, some d =>
      let progress := resolveProgress now isOld a
      let ft := bracketGo progress (keysOf d) 0
        (match keysOf d with | k :: _ => .num k | [] => .nan)
      ⟨ft.1, ft.2, progress⟩
  | _, _ => ⟨0, .num 0, .num 0⟩

/-!
## Transform blender and engine facade
-/

/-- The crossfade guard of `calculateAnimatedValues`
(src/client-animations.ts:154): the previous animation's pass contributes
only when `baseFrom == 0` (the current animation's resolved `from` key) and
`isOldAnimationCanceled` holds at the current instant.  `baseFrom` is
`undefined` (`none`) in the current-animation pass, and `undefined == 0` is
false. -/
def oldContributes (now : ℚ) (baseFrom : Option ℚ) (animation : Option Animation) : Bool :=
  (baseFrom == some 0) && isOldAnimationCanceled now animation

/-- Per-field linear interpolation (src/client-animations.ts:194-197):
`from + (to - from) * progressBetween` on each of x, y, rotation. -/
def lerp (fromValues toValues : AnimationDataPart) (pb : JSNum) : AnimationDataPart :=
  ⟨fromValues.x.add ((toValues.x.sub fromValues.x).mul pb),
   fromValues.y.add ((toValues.y.sub fromValues.y).mul pb),
   fromValues.rotation.add ((toValues.rotation.sub fromValues.rotation).mul pb)⟩

/-- Selection of the blend's `from` side (src/client-animations.ts:180-184):
the old-pass value for this part when present, else
`animationData[from][returnKey]`, else the zero transform.  When the
keyframe table itself is `undefined` and the old pass produced no value, the
read `animationData[from]` raises a TypeError, embedded as `Except.error`. -/
def resolveFromValues (animationData : Option AnimationData) (fromKey : ℚ)
    (oldAnimationValues : Option (List (String × AnimationDataPart))) (rk : String) :
    Except Unit AnimationDataPart :=
  match oldAnimationValues.bind (fun m => lookupPart m rk) with
  | some v => .ok v
  | none =>
      match animationData with
      | none => .error ()
      | some d => .ok ((partEntry d fromKey rk).getD emptyValues)

/-- Selection of the blend's `to` side (src/client-animations.ts:186-189):
always the current table's entry `animationData[to][returnKey]`, defaulting
to the zero transform; reading `animationData[to]` off an `undefined` table
raises a TypeError. -/
def resolveToValues (animationData : Option AnimationData) (toKey : JSNum) (rk : String) :
    Except Unit AnimationDataPart :=
  match animationData with
  | none => .error ()
  | some d => .ok ((partEntryJS d toKey rk).getD emptyValues)

/-- The body of the `returnKeys.forEach` loop for one part
(src/client-animations.ts:172-198): choose the from/to values and blend. -/
def calcPart (animationData : Option AnimationData) (fromKey : ℚ) (toKey : JSNum)
    (pb : JSNum) (oldAnimationValues : Option (List (String × AnimationDataPart)))
    (rk : String) : Except Unit AnimationDataPart :=
  match resolveFromValues animationData fromKey oldAnimationValues rk with
  | .error e => .error e
  | .ok fv =>
      match resolveToValues animationData toKey rk with
      | .error e => .error e
      | .ok tv => .ok (lerp fv tv pb)

/-- The `forEach` accumulation over `returnKeys`: builds the result map in
request order; a thrown TypeError aborts the whole call. -/
def mapParts (g : String → Except Unit AnimationDataPart) :
    List String → Except Unit (List (String × AnimationDataPart))
  | [] => .ok []
  | rk :: rest =>
      match g rk with
      | .error e => .error e
      | .ok v =>
          match mapParts g rest with
          | .error e => .error e
          | .ok m => .ok ((rk, v) :: m)

/-- `calculateAnimatedValues` (src/client-animations.ts:141-201).  The old
pass returns the empty map unless the crossfade guard holds; both passes
then blend every requested part with
`calculateProgressBetweenKeys from to progress`.  (The source's
`typeof from != 'number'` guard is omitted: `from` and `to` always hold
JavaScript numbers here — NaN included — so it never fires.) -/
def calculateAnimatedValues (now : ℚ) (fromKey : ℚ) (toKey : JSNum) (progress : JSNum)
    (animation : Option Animation) (animationData : Option AnimationData)
    (returnKeys : List String) (isOld : Bool) (baseFrom : Option ℚ)
    (oldAnimationValues : Option (List (String × AnimationDataPart))) :
    Except Unit (List (String × AnimationDataPart)) :=
  if isOld && !(oldContributes now baseFrom animation) then .ok []
  else
    let pb := calculateProgressBetweenKeys fromKey toKey progress
    mapParts (fun rk => calcPart animationData fromKey toKey pb oldAnimationValues rk) returnKeys

/-- `getAnimationValues` (src/client-animations.ts:29-82), the engine
facade.  `animations` is the static keyframe module (not among the provided
sources), passed as a lookup function; `animations[oldAnimation?.name]` is
`undefined` when `oldAnimation` is absent. -/
def getAnimationValues (now : ℚ) (animation oldAnimation : Option Animation)
    (animations : String → Option AnimationData) (returnKeys : List String) :
    Except Unit (List (String × AnimationDataPart)) :=
  if returnKeys = [] ∨ animation = none then .ok []
  else
    let animationData := animation.bind (fun a => animations a.name)
    let oldAnimationData := oldAnimation.bind (fun a => animations a.name)
    let ck := getAnimationKeys now animation animationData false
    let oldKeys := getAnimationKeys now oldAnimation oldAnimationData true
    match calculateAnimatedValues now oldKeys.fromKey oldKeys.toKey oldKeys.progress
        oldAnimation oldAnimationData returnKeys true (some ck.fromKey) none with
    | .error e => .error e
    | .ok oldVals =>
        calculateAnimatedValues now ck.fromKey ck.toKey ck.progress animation animationData
          returnKeys false none (some oldVals)

/-!
## Server tick scheduler (src/server-game.ts)

Only the scheduling arithmetic of `Game.update` is embedded: the tick body
(`movePlayers`, attacks, broadcasting) lives in modules that are not among
the provided sources and does not influence the scheduled delay.
-/

/-- The timing fields of the `Game` class (src/server-game.ts:30-46). -/
structure GameTimer where
  tickRate : ℚ
  loopTimeout : ℚ
  start : ℚ
  time : ℚ
deriving DecidableEq, Repr

/-- The `Game` constructor's timing initialisation: `tickRate = 60`,
`loopTimeout = 1000 / tickRate`, `start = new Date().getTime()`, `time = 0`. -/
def mkGameTimer (startTime : ℚ) : GameTimer :=
  ⟨60, 1000 / 60, startTime, 0⟩

/-- The re-arming step at the end of `Game.update` (src/server-game.ts:66-68):
`time += loopTimeout; diff = now - start - time; setTimeout(update, loopTimeout - diff)`.
Returns the new timer state and the raw delay argument passed to
`setTimeout` (the code itself applies no lower bound to it). -/
def updateTimer (g : GameTimer) (now : ℚ) : GameTimer × ℚ :=
  let time2 := g.time + g.loopTimeout
  let diff := now - g.start - time2
  ({ g with time := time2 }, g.loopTimeout - diff)

/-!
## Derived definitions used in statements
-/

/-- The pure value `calcPart` computes when the keyframe table is present
(no TypeError can occur): the blend of the chosen from/to values. -/
def calcPartVal (d : AnimationData) (fromKey : ℚ) (toKey : JSNum) (pb : JSNum)
    (oldAnimationValues : Option (List (String × AnimationDataPart))) (rk : String) :
    AnimationDataPart :=
  lerp ((oldAnimationValues.bind (fun m => lookupPart m rk)).getD
          ((partEntry d fromKey rk).getD emptyValues))
       ((partEntryJS d toKey rk).getD emptyValues) pb

/-- The key immediately after `f` in a sorted key list — the least key
strictly greater than `f` — or 100 when there is none (spec wording for the
`to` key). -/
def firstKeyAbove (ks : List ℚ) (f : ℚ) : JSNum :=
  match ks.filter (fun k => decide (f < k)) with
  | [] => .num 100
  | k :: _ => .num k

/-- Two optional keyframe tables that have the same percentage keys and agree
on every entry for part `p` (both absent also counts as agreeing). -/
def agreesOn (p : String) : Option AnimationData → Option AnimationData → Prop
  | none, none => True
  | some d1, some d2 =>
      keysOf d1 = keysOf d2 ∧ ∀ k ∈ keysOf d1, partEntry d1 k p = partEntry d2 k p
  | _, _ => False

/-- The observable output of an engine call for a single part: the raised
exception, or the entry returned for that part. -/
def outputFor (r : Except Unit (List (String × AnimationDataPart))) (p : String) :
    Except Unit (Option AnimationDataPart) :=
  match r with
  | .error e => .error e
  | .ok m => .ok (lookupPart m p)

/-!
## Helper lemmas: the progress computation
-/

theorem getAnimationKeys_progress (now : ℚ) (a : Animation) (d : AnimationData) (b : Bool) :
    (getAnimationKeys now (some a) (some d) b).progress = resolveProgress now b a := rfl

theorem getAnimationKeys_bracket (now : ℚ) (a : Animation) (d : AnimationData) (b : Bool) :
    ((getAnimationKeys now (some a) (some d) b).fromKey,
     (getAnimationKeys now (some a) (some d) b).toKey)
      = bracketGo ((getAnimationKeys now (some a) (some d) b).progress) (keysOf d) 0
          (match keysOf d with | k :: _ => .num k | [] => .nan) := rfl

theorem clamp100_num (x : ℚ) : clamp100 (.num x) = .num (min x 100) := by
  unfold clamp100
  rw [JSNum.gtb_num_num]
  by_cases h : (100 : ℚ) < x
  · simp [h, min_eq_right h.le]
  · simp [h, min_eq_left (not_lt.mp h)]

theorem resolveProgress_live (now : ℚ) (a : Animation) (hd : a.duration ≠ 0) :
    resolveProgress now false a
      = .num (min ((now - a.createdAt) / a.duration * 100) 100) := by
  simp only [resolveProgress, timeElapsedOf, JSNum.div_num_num_of_ne _ _ hd,
    JSNum.mul_num_num, clamp100_num]

theorem resolveProgress_old (now : ℚ) (a : Animation) (c : ℚ)
    (hc : a.canceledAt = some c) (hd : a.duration ≠ 0) :
    resolveProgress now true a
      = .num (min ((c - a.createdAt) / a.duration * 100) 100) := by
  simp only [resolveProgress, timeElapsedOf, hc, JSNum.div_num_num_of_ne _ _ hd,
    JSNum.mul_num_num, clamp100_num]

theorem progress_live (now : ℚ) (a : Animation) (d : AnimationData) (hd : a.duration ≠ 0) :
    (getAnimationKeys now (some a) (some d) false).progress
      = .num (min ((now - a.createdAt) / a.duration * 100) 100) := by
  rw [getAnimationKeys_progress]
  exact resolveProgress_live now a hd

theorem progress_old (now : ℚ) (a : Animation) (d : AnimationData) (c : ℚ)
    (hc : a.canceledAt = some c) (hd : a.duration ≠ 0) :
    (getAnimationKeys now (some a) (some d) true).progress
      = .num (min ((c - a.createdAt) / a.duration * 100) 100) := by
  rw [getAnimationKeys_progress]
  exact resolveProgress_old now a c hc hd

theorem getAnimationKeys_some (now : ℚ) (a : Animation) (d : AnimationData) (b : Bool) :
    getAnimationKeys now (some a) (some d) b
      = ⟨(bracketGo (resolveProgress now b a) (keysOf d) 0
            (match keysOf d with | k :: _ => .num k | [] => .nan)).1,
         (bracketGo (resolveProgress now b a) (keysOf d) 0
            (match keysOf d with | k :: _ => .num k | [] => .nan)).2,
         resolveProgress now b a⟩ := rfl

theorem getAnimationKeys_old_now_indep (now now2 : ℚ) (ao : Option Animation)
    (dOpt : Option AnimationData) :
    getAnimationKeys now ao dOpt true = getAnimationKeys now2 ao dOpt true := by
  cases ao <;> cases dOpt <;> rfl

theorem getAnimationValues_eq (now : ℚ) (a : Animation) (oldA : Option Animation)
    (anims : String → Option AnimationData) (rks : List String) (h : rks ≠ []) :
    getAnimationValues now (some a) oldA anims rks =
      match calculateAnimatedValues now
          (getAnimationKeys now oldA (oldA.bind fun o => anims o.name) true).fromKey
          (getAnimationKeys now oldA (oldA.bind fun o => anims o.name) true).toKey
          (getAnimationKeys now oldA (oldA.bind fun o => anims o.name) true).progress
          oldA (oldA.bind fun o => anims o.name) rks true
          (some (getAnimationKeys now (some a) (anims a.name) false).fromKey) none with
      | .error e => .error e
      | .ok oldVals =>
          calculateAnimatedValues now
            (getAnimationKeys now (some a) (anims a.name) false).fromKey
            (getAnimationKeys now (some a) (anims a.name) false).toKey
            (getAnimationKeys now (some a) (anims a.name) false).progress
            (some a) (anims a.name) rks false none (some oldVals) := by
  rw [getAnimationValues, if_neg]
  · simp [Option.bind]
  · simp [h]

theorem getAnimationKeys_none (now : ℚ) (dOpt : Option AnimationData) (b : Bool) :
    getAnimationKeys now none dOpt b = ⟨0, .num 0, .num 0⟩ := by
  cases dOpt <;> rfl

theorem getAnimationKeys_no_data (now : ℚ) (aOpt : Option Animation) (b : Bool) :
    getAnimationKeys now aOpt none b = ⟨0, .num 0, .num 0⟩ := by
  cases aOpt <;> rfl

/-!
## Claim C1 — missing keyframe table
-/

/-- C1: the claim states that a call with a present current animation and a
non-empty `requestedParts` whose keyframe-table lookup returns absent raises
no exception and yields the zero transform.  The code instead reads
`animationData[from]` off `undefined` (src/client-animations.ts:182), a
TypeError.  This theorem evaluates the engine at such an input: the call
aborts with an error instead of returning zero transforms. -/
theorem c1_missing_table_error :
    getAnimationValues 1000 (some ⟨"x", 0, 1000, none⟩) none (fun _ => none) ["head"]
      = .error () := rfl

/-!
## Claim C2 — progress clamping
-/

/-- C2 (amended): for a descriptor with positive duration the resolved
progress is `min(100 * elapsed / duration, 100)` — clamped above only, so a
reference time before `createdAt` yields a negative progress (the claimed
lower clamp at 0 does not exist in the code); `elapsed` is
`referenceTime - createdAt` for a live descriptor and
`canceledAt - createdAt` for a superseded one; the progress never exceeds
100; and a superseded descriptor's resolution is independent of the
reference time. -/
theorem c2_progress (now : ℚ) (a : Animation) (d : AnimationData) (hd : 0 < a.duration) :
    ((getAnimationKeys now (some a) (some d) false).progress
        = .num (min ((now - a.createdAt) / a.duration * 100) 100)) ∧
    (∀ c : ℚ, a.canceledAt = some c →
      (getAnimationKeys now (some a) (some d) true).progress
        = .num (min ((c - a.createdAt) / a.duration * 100) 100)) ∧
    (∀ q : ℚ, (getAnimationKeys now (some a) (some d) false).progress = .num q → q ≤ 100) ∧
    (∀ now2 : ℚ, getAnimationKeys now (some a) (some d) true
        = getAnimationKeys now2 (some a) (some d) true) := by
  refine ⟨progress_live now a d hd.ne', fun c hc => progress_old now a d c hc hd.ne',
    fun q hq => ?_, fun now2 => getAnimationKeys_old_now_indep now now2 _ _⟩
  rw [progress_live now a d hd.ne'] at hq
  cases hq
  exact min_le_right _ _

/-- C2, counterexample to the claim as stated: with `createdAt = 1000`,
`duration = 1000` and reference time `500` the code resolves progress to
`-50`, while `clamp(100 * elapsed / duration, 0, 100) = 0`; so progress is
not clamped below at 0. -/
theorem c2_progress_counterexample :
    (getAnimationKeys 500 (some ⟨"a", 1000, 1000, none⟩) (some [((0:ℚ), [])]) false).progress
      = .num (-50) ∧
    max (0:ℚ) (min ((500 - 1000) / 1000 * 100) 100) = 0 ∧
    JSNum.num (-50) ≠ .num 0 := by
  refine ⟨?_, by norm_num, by norm_num⟩
  rw [progress_live 500 ⟨"a", 1000, 1000, none⟩ [((0:ℚ), [])] (by norm_num)]
  norm_num [min_def]

/-- C2, witness: the amended theorem applied at a concrete saturated live
descriptor and at its frozen superseded resolution. -/
theorem c2_progress_witness :
    (getAnimationKeys 4000 (some ⟨"a", 0, 1000, some 250⟩) (some [((0:ℚ), [])]) false).progress
      = .num 100 ∧
    (getAnimationKeys 4000 (some ⟨"a", 0, 1000, some 250⟩) (some [((0:ℚ), [])]) true).progress
      = .num 25 := by
  constructor
  · have h := (c2_progress 4000 ⟨"a", 0, 1000, some 250⟩ [((0:ℚ), [])] (by norm_num)).1
    rw [h]; norm_num
  · have h := (c2_progress 4000 ⟨"a", 0, 1000, some 250⟩ [((0:ℚ), [])] (by norm_num)).2.1 250 rfl
    rw [h]; norm_num

/-!
## Claim C6 — blend factor at `to == from`
-/

/-- C6: the claim states `progressBetween` is the quotient clamped above at
1, and that `to == from` (specifically `to == from == 0`) yields 0 instead
of a division by zero.  The code has no such guard: at
`from = to = progress = 0` it computes `0 / 0 = NaN`, not 0. -/
theorem c6_progress_between_nan :
    calculateProgressBetweenKeys 0 (.num 0) (.num 0) = .nan ∧
    JSNum.nan ≠ .num 0 := by
  constructor
  · norm_num [calculateProgressBetweenKeys, JSNum.sub, JSNum.neg, JSNum.add, JSNum.div,
      JSNum.gtb]
  · simp

/-!
## Claim C7 — nonpositive duration
-/

/-- C7: the claim states a descriptor with `duration <= 0` resolves to
progress 100 ("already complete") with no division by zero.  The code
divides by `duration` unguarded (src/client-animations.ts:120): with
`duration = -1000`, `createdAt = 0` and reference time `500` it resolves
progress to `-50`, not 100. -/
theorem c7_negative_duration_progress :
    (getAnimationKeys 500 (some ⟨"a", 0, -1000, none⟩) (some [((0:ℚ), [])]) false).progress
      = .num (-50) ∧
    JSNum.num (-50) ≠ .num 100 := by
  constructor
  · rw [progress_live 500 ⟨"a", 0, -1000, none⟩ [((0:ℚ), [])] (by norm_num)]
    norm_num [min_def]
  · norm_num

/-!
## Claim C8 — saturation at the final keyframe
-/

/-- C8: the claim states that once `referenceTime - createdAt >= duration`
the returned transform equals the keyframe-100 entry exactly.  At
saturation the bracketing loop yields `from = to = 100`, so the blend
factor is `(100 - 100) / (100 - 100) = 0/0 = NaN`, which propagates into
every output field: the engine returns NaN transforms, not the keyframe-100
entry `{5, 7, 9}`.  (With a last key below 100 the entry at
`animationData[100]` is absent instead and the output snaps to the zero
transform rather than holding the last key's entry.) -/
theorem c8_saturation_nan :
    getAnimationValues 2000 (some ⟨"atk", 1000, 1000, none⟩) none
      (fun n => if n = "atk" then
          some [((0:ℚ), [("head", ⟨.num 0, .num 0, .num 0⟩)]),
                ((100:ℚ), [("head", ⟨.num 5, .num 7, .num 9⟩)])]
        else none) ["head"]
      = .ok [("head", ⟨.nan, .nan, .nan⟩)] ∧
    JSNum.nan ≠ .num 5 := by
  have hp : resolveProgress 2000 false ⟨"atk", 1000, 1000, none⟩ = .num 100 := by
    rw [resolveProgress_live 2000 ⟨"atk", 1000, 1000, none⟩ (by norm_num)]
    norm_num
  have hk : getAnimationKeys 2000 (some ⟨"atk", 1000, 1000, none⟩)
      (some [((0:ℚ), [("head", ⟨.num 0, .num 0, .num 0⟩)]),
             ((100:ℚ), [("head", ⟨.num 5, .num 7, .num 9⟩)])]) false
      = ⟨100, .num 100, .num 100⟩ := by
    rw [getAnimationKeys_some, hp]
    norm_num [keysOf, bracketGo, headOr100, JSNum.geb]
  have hpb : calculateProgressBetweenKeys 100 (.num 100) (.num 100) = .nan := by
    norm_num [calculateProgressBetweenKeys, JSNum.sub, JSNum.neg, JSNum.add, JSNum.div,
      JSNum.gtb]
  have hcp : calcPart
      (some [((0:ℚ), [("head", ⟨.num 0, .num 0, .num 0⟩)]),
             ((100:ℚ), [("head", ⟨.num 5, .num 7, .num 9⟩)])])
      100 (.num 100) .nan (some []) "head" = .ok ⟨.nan, .nan, .nan⟩ := by
    norm_num [calcPart, resolveFromValues, resolveToValues, partEntry, partEntryJS,
      lookupFrame, lookupPart, List.find?, lerp, emptyValues, JSNum.sub, JSNum.neg,
      JSNum.add, JSNum.mul]
  constructor
  · rw [getAnimationValues_eq 2000 ⟨"atk", 1000, 1000, none⟩ none _ ["head"] (by simp)]
    simp only [Option.bind_none, getAnimationKeys_none]
    norm_num [hk, hpb, hcp, calculateAnimatedValues, oldContributes,
      isOldAnimationCanceled, mapParts]
  · simp

/-!
## Claim C9 — tick re-arming
-/

/-- C9 (amended): after every tick the delay argument passed to `setTimeout`
equals the nominal interval (`1000 / tickRate` in the constructor) minus the
overrun accumulated relative to the loop's start (`now - start - time` after
`time` has advanced by one interval); the code applies no lower bound to
this argument, so whenever the accumulated overrun exceeds the interval the
argument is negative — any clamping to a non-negative effective wait happens
inside the runtime's `setTimeout`, not in this code. -/
theorem c9_schedule (g : GameTimer) (now : ℚ) :
    ((updateTimer g now).2 = g.loopTimeout - (now - g.start - (updateTimer g now).1.time)) ∧
    ((updateTimer g now).1.time = g.time + g.loopTimeout) ∧
    (∀ s : ℚ, (mkGameTimer s).loopTimeout = 1000 / (mkGameTimer s).tickRate) ∧
    (g.loopTimeout < now - g.start - (g.time + g.loopTimeout) → (updateTimer g now).2 < 0) := by
  refine ⟨rfl, rfl, fun s => rfl, fun h => ?_⟩
  simp only [updateTimer]
  linarith

/-- C9, counterexample to the claim as stated: a tick finishing at `now = 50`
on the freshly constructed timer has accumulated overrun `100/3`, exceeding
the interval `50/3`, and the code passes the negative delay `-50/3` to
`setTimeout` — the scheduled delay is not "never negative". -/
theorem c9_schedule_counterexample :
    (updateTimer (mkGameTimer 0) 50).2 = -50/3 ∧ ((-50 : ℚ)/3 < 0) := by
  constructor
  · norm_num [updateTimer, mkGameTimer]
  · norm_num

/-- C9, witness: the amended theorem applied at the concrete overrun state. -/
theorem c9_schedule_witness : (updateTimer (mkGameTimer 0) 50).2 < 0 :=
  (c9_schedule (mkGameTimer 0) 50).2.2.2 (by norm_num [mkGameTimer])

/-!
## Helper lemmas: passes of `calculateAnimatedValues`
-/

theorem calcPart_some (d : AnimationData) (fk : ℚ) (tk pb : JSNum)
    (ov : Option (List (String × AnimationDataPart))) (rk : String) :
    calcPart (some d) fk tk pb ov rk = .ok (calcPartVal d fk tk pb ov rk) := by
  cases h : ov.bind (fun m => lookupPart m rk) <;>
    simp [calcPart, resolveFromValues, resolveToValues, calcPartVal, h]

theorem calcPart_none (fk : ℚ) (tk pb : JSNum)
    (ov : Option (List (String × AnimationDataPart))) (rk : String) :
    calcPart none fk tk pb ov rk = .error () := by
  cases h : ov.bind (fun m => lookupPart m rk) <;>
    simp [calcPart, resolveFromValues, resolveToValues, h]

theorem mapParts_of_ok (g : String → Except Unit AnimationDataPart)
    (G : String → AnimationDataPart) (h : ∀ rk, g rk = .ok (G rk)) :
    ∀ rks : List String, mapParts g rks = .ok (rks.map fun rk => (rk, G rk))
  | [] => rfl
  | rk :: rest => by
      simp [mapParts, h rk, mapParts_of_ok g G h rest]

theorem mapParts_err (g : String → Except Unit AnimationDataPart)
    (h : ∀ rk, g rk = .error ()) (rks : List String) (hne : rks ≠ []) :
    mapParts g rks = .error () := by
  cases rks with
  | nil => exact absurd rfl hne
  | cons rk rest => simp [mapParts, h rk]

theorem lookupPart_graph (G : String → AnimationDataPart) (p : String)
    (rks : List String) (h : p ∈ rks) :
    lookupPart (rks.map fun rk => (rk, G rk)) p = some (G p) := by
  induction rks with
  | nil => cases h
  | cons rk rest ih =>
      by_cases hrk : rk = p
      · subst hrk
        simp [lookupPart, List.find?]
      · have hmem : p ∈ rest := by
          rcases List.mem_cons.mp h with h1 | h1
          · exact absurd h1.symm hrk
          · exact h1
        simpa [lookupPart, List.find?, hrk] using ih hmem

theorem oldContributes_none (now : ℚ) (bf : Option ℚ) :
    oldContributes now bf none = false := by
  simp [oldContributes, isOldAnimationCanceled]

theorem oldContributes_iff (now : ℚ) (f : ℚ) (o : Animation) :
    oldContributes now (some f) (some o) = true ↔
      (f = 0 ∧ now - o.createdAt - o.duration < 0) := by
  simp [oldContributes, isOldAnimationCanceled, Bool.and_eq_true]

theorem calculateAnimatedValues_old_skip (now fk : ℚ) (tk pr : JSNum)
    (oa : Option Animation) (od : Option AnimationData) (rks : List String)
    (bf : Option ℚ) (ov : Option (List (String × AnimationDataPart)))
    (h : oldContributes now bf oa = false) :
    calculateAnimatedValues now fk tk pr oa od rks true bf ov = .ok [] := by
  simp [calculateAnimatedValues, h]

theorem calculateAnimatedValues_old_run (now fk : ℚ) (tk pr : JSNum)
    (oa : Option Animation) (od : Option AnimationData) (rks : List String)
    (bf : Option ℚ) (ov : Option (List (String × AnimationDataPart)))
    (h : oldContributes now bf oa = true) :
    calculateAnimatedValues now fk tk pr oa od rks true bf ov
      = mapParts (fun rk =>
          calcPart od fk tk (calculateProgressBetweenKeys fk tk pr) ov rk) rks := by
  simp [calculateAnimatedValues, h]

theorem calculateAnimatedValues_new (now fk : ℚ) (tk pr : JSNum)
    (a : Option Animation) (od : Option AnimationData) (rks : List String)
    (bf : Option ℚ) (ov : Option (List (String × AnimationDataPart))) :
    calculateAnimatedValues now fk tk pr a od rks false bf ov
      = mapParts (fun rk =>
          calcPart od fk tk (calculateProgressBetweenKeys fk tk pr) ov rk) rks := by
  simp [calculateAnimatedValues]

/-!
## Claim C4 — the crossfade guard
-/

/-- C4: the previous animation's pass contributes exactly when the current
animation's resolved `from` key (passed as `baseFrom`) equals 0 and
`referenceTime - previous.createdAt - previous.duration < 0` holds at the
current reference time; an absent previous animation never contributes, and
whenever the guard is false the old pass returns the empty contribution. -/
theorem c4_crossfade_guard (now : ℚ) (o : Animation) (f : ℚ) (bf : Option ℚ)
    (fk : ℚ) (tk pr : JSNum) (oa : Option Animation) (od : Option AnimationData)
    (rks : List String) (ov : Option (List (String × AnimationDataPart))) :
    (oldContributes now (some f) (some o) = true ↔
        (f = 0 ∧ now - o.createdAt - o.duration < 0)) ∧
    (isOldAnimationCanceled now none = false) ∧
    (oldContributes now bf none = false) ∧
    (oldContributes now bf oa = false →
        calculateAnimatedValues now fk tk pr oa od rks true bf ov = .ok []) :=
  ⟨oldContributes_iff now f o, rfl, oldContributes_none now bf,
    fun h => calculateAnimatedValues_old_skip now fk tk pr oa od rks bf ov h⟩

/-- C4, witness: with an absent previous animation the guard is false and
the old pass contributes nothing, even with a nonzero `baseFrom`. -/
theorem c4_crossfade_guard_witness :
    calculateAnimatedValues 0 0 (.num 0) (.num 0) none none ["head"] true (some 5) none
      = .ok [] ∧
    oldContributes 0 (some 5) none = false := by
  have h := c4_crossfade_guard 0 ⟨"o", 0, 1, none⟩ 5 (some 5) 0 (.num 0) (.num 0)
    none none ["head"] none
  exact ⟨h.2.2.2 h.2.2.1, h.2.2.1⟩

/-!
## Claim C5 — crossfade blends from the frozen previous transform
-/

/-- C5: when the crossfade guard holds, the previous animation's progress is
resolved with `elapsed = canceledAt - createdAt` (frozen at cancellation, so
the resolver's result for the superseded descriptor does not change with the
reference time), the old pass emits for every requested part the value
blended at those frozen keys, the pass itself is reference-time-independent
while the guard holds, and the current pass's blend `from` side is exactly
the old pass's entry for the part whenever one exists. -/
theorem c5_crossfade_frozen (now now2 : ℚ) (o : Animation) (c : ℚ) (od : AnimationData)
    (d : Option AnimationData) (f fk : ℚ) (tk pr : JSNum) (rks : List String)
    (rk : String) (v : AnimationDataPart)
    (hoc : o.canceledAt = some c) (hd : 0 < o.duration)
    (hg1 : oldContributes now (some f) (some o) = true)
    (hg2 : oldContributes now2 (some f) (some o) = true)
    (hrk : rk ∈ rks) :
    ((getAnimationKeys now (some o) (some od) true).progress
        = .num (min ((c - o.createdAt) / o.duration * 100) 100)) ∧
    (getAnimationKeys now (some o) (some od) true
        = getAnimationKeys now2 (some o) (some od) true) ∧
    (calculateAnimatedValues now fk tk pr (some o) (some od) rks true (some f) none
        = .ok (rks.map fun s =>
            (s, calcPartVal od fk tk (calculateProgressBetweenKeys fk tk pr) none s))) ∧
    (calculateAnimatedValues now fk tk pr (some o) (some od) rks true (some f) none
        = calculateAnimatedValues now2 fk tk pr (some o) (some od) rks true (some f) none) ∧
    (lookupPart (rks.map fun s =>
        (s, calcPartVal od fk tk (calculateProgressBetweenKeys fk tk pr) none s)) rk
      = some (calcPartVal od fk tk (calculateProgressBetweenKeys fk tk pr) none rk)) ∧
    (∀ m, lookupPart m rk = some v → resolveFromValues d f (some m) rk = .ok v) := by
  refine ⟨progress_old now o od c hoc hd.ne', getAnimationKeys_old_now_indep now now2 _ _,
    ?_, ?_, lookupPart_graph _ rk rks hrk, ?_⟩
  · rw [calculateAnimatedValues_old_run now fk tk pr (some o) (some od) rks (some f) none hg1]
    exact mapParts_of_ok _ _
      (fun s => calcPart_some od fk tk (calculateProgressBetweenKeys fk tk pr) none s) rks
  · rw [calculateAnimatedValues_old_run now fk tk pr (some o) (some od) rks (some f) none hg1,
      calculateAnimatedValues_old_run now2 fk tk pr (some o) (some od) rks (some f) none hg2]
  · intro m hm
    simp [resolveFromValues, Option.bind, hm]

/-- C5, witness: a previous animation of duration 1000 canceled at 500 and
inspected at reference time 800 resolves to the frozen progress 50, and the
new pass's from-side picks up the old pass's entry unchanged. -/
theorem c5_crossfade_frozen_witness :
    (getAnimationKeys 800 (some ⟨"o", 0, 1000, some 500⟩) (some [((0:ℚ), [])]) true).progress
      = .num 50 ∧
    resolveFromValues none 0 (some [("head", ⟨.num 1, .num 2, .num 3⟩)]) "head"
      = .ok ⟨.num 1, .num 2, .num 3⟩ := by
  have h := c5_crossfade_frozen 800 900 ⟨"o", 0, 1000, some 500⟩ 500 [((0:ℚ), [])] none 0 0
    (.num 0) (.num 0) ["head"] "head" ⟨.num 1, .num 2, .num 3⟩ rfl (by norm_num)
    (by norm_num [oldContributes, isOldAnimationCanceled])
    (by norm_num [oldContributes, isOldAnimationCanceled])
    (by simp)
  constructor
  · rw [h.1]
    norm_num [min_def]
  · exact h.2.2.2.2.2 [("head", ⟨.num 1, .num 2, .num 3⟩)] (by simp [lookupPart, List.find?])


/-!
## Helper lemmas: the bracketing loop
-/

theorem bracketGo_all_gt (p : ℚ) (ks : List ℚ) (h : ∀ k ∈ ks, p < k) (f : ℚ) (t : JSNum) :
    bracketGo (.num p) ks f t = (f, t) := by
  induction ks generalizing f t with
  | nil => rfl
  | cons k rest ih =>
      have hk : ¬ (k ≤ p) := not_le.mpr (h k (List.mem_cons_self k rest))
      simp only [bracketGo, JSNum.geb_num_num, decide_eq_false hk, Bool.false_eq_true,
        if_false]
      exact ih (fun k2 hk2 => h k2 (List.mem_cons_of_mem _ hk2)) f t

theorem bracketGo_found (p : ℚ) :
    ∀ (ks : List ℚ), ks.Pairwise (· < ·) →
    ∀ (f : ℚ) (t : JSNum), (∃ k0 ∈ ks, k0 ≤ p) →
      (bracketGo (.num p) ks f t).1 ∈ ks ∧
      (bracketGo (.num p) ks f t).1 ≤ p ∧
      (∀ k ∈ ks, k ≤ p → k ≤ (bracketGo (.num p) ks f t).1) ∧
      (bracketGo (.num p) ks f t).2
        = firstKeyAbove ks (bracketGo (.num p) ks f t).1 := by
  intro ks
  induction ks with
  | nil => exact fun _ f t hex => absurd hex (by simp)
  | cons k rest ih =>
      intro hs f t hex
      have hall : ∀ k2 ∈ rest, k < k2 := (List.pairwise_cons.mp hs).1
      have hs2 : rest.Pairwise (· < ·) := (List.pairwise_cons.mp hs).2
      by_cases hk : k ≤ p
      · have hstep : bracketGo (.num p) (k :: rest) f t
            = bracketGo (.num p) rest k (headOr100 rest) := by
          simp only [bracketGo, JSNum.geb_num_num, decide_eq_true hk, if_true]
        by_cases hrest : ∃ k0 ∈ rest, k0 ≤ p
        · have main := ih hs2 k (headOr100 rest) hrest
          rw [hstep]
          refine ⟨List.mem_cons_of_mem _ main.1, main.2.1, ?_, ?_⟩
          · intro k2 hk2 hk2le
            rcases List.mem_cons.mp hk2 with h1 | h1
            · exact h1 ▸ (hall _ main.1).le
            · exact main.2.2.1 k2 h1 hk2le
          · rw [main.2.2.2]
            have hrk : ¬ ((bracketGo (.num p) rest k (headOr100 rest)).1 < k) :=
              not_lt.mpr (hall _ main.1).le
            unfold firstKeyAbove
            rw [List.filter_cons, decide_eq_false hrk]
            simp only [Bool.false_eq_true, if_false]
        · have hall_gt : ∀ k2 ∈ rest, p < k2 := by
            intro k2 hk2
            by_contra hle
            exact hrest ⟨k2, hk2, not_lt.mp hle⟩
          rw [hstep, bracketGo_all_gt p rest hall_gt]
          refine ⟨List.mem_cons_self _ _, hk, ?_, ?_⟩
          · intro k2 hk2 hk2le
            rcases List.mem_cons.mp hk2 with h1 | h1
            · exact le_of_eq h1
            · exact absurd hk2le (not_le.mpr (hall_gt k2 h1))
          · have hfilter : (k :: rest).filter (fun k2 => decide (k < k2)) = rest := by
              rw [List.filter_cons, decide_eq_false (lt_irrefl k)]
              simp only [Bool.false_eq_true, if_false]
              exact List.filter_eq_self.mpr (fun k2 hk2 => decide_eq_true (hall k2 hk2))
            unfold firstKeyAbove
            rw [hfilter]
            cases rest <;> rfl
      · rcases hex with ⟨k0, hk0, hk0le⟩
        rcases List.mem_cons.mp hk0 with h1 | h1
        · exact absurd (h1 ▸ hk0le) hk
        · exact absurd hk0le (not_le.mpr (lt_trans (not_le.mp hk) (hall k0 h1)))

/-!
## Claim C3 — bracketing keys
-/

/-- C3 (amended): for a positive-duration descriptor and a non-empty table
with strictly ascending keys, the resolver's `from` is the greatest key not
above the resolved progress — or 0 when every key exceeds the progress, in
which case `to` is the table's first key (not the key after `from`: when 0
is itself a table key and the progress is negative, the loop never runs its
body and `to` stays at `keys[0] = 0`); when some key is at or below the
progress, `to` is the key immediately after `from`, or 100 when `from` is
the last key. -/
theorem c3_bracketing (now : ℚ) (a : Animation) (d : AnimationData) (k0 : ℚ)
    (ks : List ℚ) (p : ℚ) (hd : 0 < a.duration) (hks : keysOf d = k0 :: ks)
    (hs : (keysOf d).Pairwise (· < ·))
    (hp : min ((now - a.createdAt) / a.duration * 100) 100 = p) :
    ((∀ k ∈ keysOf d, p < k) →
        (getAnimationKeys now (some a) (some d) false).fromKey = 0 ∧
        (getAnimationKeys now (some a) (some d) false).toKey = .num k0) ∧
    ((∃ k ∈ keysOf d, k ≤ p) →
        (getAnimationKeys now (some a) (some d) false).fromKey ∈ keysOf d ∧
        (getAnimationKeys now (some a) (some d) false).fromKey ≤ p ∧
        (∀ k ∈ keysOf d, k ≤ p →
            k ≤ (getAnimationKeys now (some a) (some d) false).fromKey) ∧
        (getAnimationKeys now (some a) (some d) false).toKey
          = firstKeyAbove (keysOf d)
              ((getAnimationKeys now (some a) (some d) false).fromKey)) := by
  have hprog : resolveProgress now false a = .num p := by
    rw [resolveProgress_live now a hd.ne', hp]
  have hgk : getAnimationKeys now (some a) (some d) false
      = ⟨(bracketGo (.num p) (k0 :: ks) 0 (.num k0)).1,
         (bracketGo (.num p) (k0 :: ks) 0 (.num k0)).2, .num p⟩ := by
    rw [getAnimationKeys_some, hprog, hks]
  rw [hks] at hs
  rw [hgk, hks]
  constructor
  · intro hall
    rw [bracketGo_all_gt p (k0 :: ks) hall 0 (.num k0)]
    exact ⟨rfl, rfl⟩
  · intro hex
    exact bracketGo_found p (k0 :: ks) hs 0 (.num k0) hex

/-- C3, counterexample to the claim as stated: table with keys `{0, 40}`,
`createdAt = 1000`, `duration = 1000`, reference time `0`, so the resolved
progress is `-100` and no key is at or below it.  The claim puts `from = 0`
(correct) and `to` = the key immediately after `from` in the table, which is
40 here since 0 is itself a key; but the loop body never runs, so the code
leaves `to` at `keys[0] = 0 ≠ 40`. -/
theorem c3_bracketing_counterexample :
    (getAnimationKeys 0 (some ⟨"a", 1000, 1000, none⟩)
        (some [((0:ℚ), []), ((40:ℚ), [])]) false).fromKey = 0 ∧
    (getAnimationKeys 0 (some ⟨"a", 1000, 1000, none⟩)
        (some [((0:ℚ), []), ((40:ℚ), [])]) false).toKey = .num 0 ∧
    firstKeyAbove (keysOf [((0:ℚ), []), ((40:ℚ), [])]) 0 = .num 40 ∧
    JSNum.num 0 ≠ .num 40 := by
  have hp : resolveProgress 0 false ⟨"a", 1000, 1000, none⟩ = .num (-100) := by
    rw [resolveProgress_live 0 ⟨"a", 1000, 1000, none⟩ (by norm_num)]
    norm_num [min_def]
  have hk : getAnimationKeys 0 (some ⟨"a", 1000, 1000, none⟩)
      (some [((0:ℚ), []), ((40:ℚ), [])]) false = ⟨0, .num 0, .num (-100)⟩ := by
    rw [getAnimationKeys_some, hp]
    norm_num [keysOf, bracketGo, headOr100, JSNum.geb]
  refine ⟨by rw [hk], by rw [hk], ?_, by norm_num⟩
  norm_num [firstKeyAbove, keysOf, List.filter]

/-- C3, witness: the amended theorem applied at the spec's own worked
example (keys `{0, 40, 60}`, progress 50): the resolved `from` is a table
key and `to` is the key immediately after it. -/
theorem c3_bracketing_witness :
    (getAnimationKeys 500 (some ⟨"a", 0, 1000, none⟩)
        (some [((0:ℚ), []), ((40:ℚ), []), ((60:ℚ), [])]) false).fromKey
      ∈ keysOf [((0:ℚ), []), ((40:ℚ), []), ((60:ℚ), [])] ∧
    (getAnimationKeys 500 (some ⟨"a", 0, 1000, none⟩)
        (some [((0:ℚ), []), ((40:ℚ), []), ((60:ℚ), [])]) false).toKey
      = firstKeyAbove (keysOf [((0:ℚ), []), ((40:ℚ), []), ((60:ℚ), [])])
          ((getAnimationKeys 500 (some ⟨"a", 0, 1000, none⟩)
              (some [((0:ℚ), []), ((40:ℚ), []), ((60:ℚ), [])]) false).fromKey) := by
  have h := (c3_bracketing 500 ⟨"a", 0, 1000, none⟩
      [((0:ℚ), []), ((40:ℚ), []), ((60:ℚ), [])] 0 [40, 60] 50
      (by norm_num) (by simp [keysOf])
      (by simp [keysOf]; norm_num [List.pairwise_cons])
      (by norm_num [min_def])).2
    ⟨40, by simp [keysOf], by norm_num⟩
  exact ⟨h.1, h.2.2.2⟩

/-!
## Helper lemmas: per-part dependence
-/

theorem lookupFrame_eq_none_iff (d : AnimationData) (k : ℚ) :
    lookupFrame d k = none ↔ k ∉ keysOf d := by
  simp only [lookupFrame, Option.map_eq_none', List.find?_eq_none, keysOf, List.mem_map,
    decide_eq_true_eq]
  constructor
  · rintro h ⟨e, he, hek⟩
    exact h e he hek
  · intro h e he hek
    exact h ⟨e, he, hek⟩

theorem partEntry_congr_all (d1 d2 : AnimationData) (p : String)
    (hk : keysOf d1 = keysOf d2)
    (he : ∀ k ∈ keysOf d1, partEntry d1 k p = partEntry d2 k p) :
    ∀ k : ℚ, partEntry d1 k p = partEntry d2 k p := by
  intro k
  by_cases hm : k ∈ keysOf d1
  · exact he k hm
  · have e1 : lookupFrame d1 k = none := (lookupFrame_eq_none_iff d1 k).mpr hm
    have e2 : lookupFrame d2 k = none := (lookupFrame_eq_none_iff d2 k).mpr (hk ▸ hm)
    simp [partEntry, e1, e2]

theorem calcPartVal_congr (d1 d2 : AnimationData) (fk : ℚ) (tk pb : JSNum)
    (ov1 ov2 : Option (List (String × AnimationDataPart))) (p : String)
    (hk : keysOf d1 = keysOf d2)
    (he : ∀ k ∈ keysOf d1, partEntry d1 k p = partEntry d2 k p)
    (hov : ov1.bind (fun m => lookupPart m p) = ov2.bind (fun m => lookupPart m p)) :
    calcPartVal d1 fk tk pb ov1 p = calcPartVal d2 fk tk pb ov2 p := by
  have hall := partEntry_congr_all d1 d2 p hk he
  have hB : partEntryJS d1 tk p = partEntryJS d2 tk p := by
    cases tk <;> simp [partEntryJS, hall]
  unfold calcPartVal
  rw [hov, hall fk, hB]

theorem getAnimationKeys_congr (now : ℚ) (aOpt : Option Animation) (b : Bool)
    (d1 d2 : AnimationData) (hk : keysOf d1 = keysOf d2) :
    getAnimationKeys now aOpt (some d1) b = getAnimationKeys now aOpt (some d2) b := by
  cases aOpt with
  | none => rfl
  | some a => rw [getAnimationKeys_some, getAnimationKeys_some, hk]

theorem agreesOn_cases (p : String) (x y : Option AnimationData) (h : agreesOn p x y) :
    (x = none ∧ y = none) ∨
      ∃ d1 d2, x = some d1 ∧ y = some d2 ∧ keysOf d1 = keysOf d2 ∧
        ∀ k ∈ keysOf d1, partEntry d1 k p = partEntry d2 k p := by
  cases x with
  | none =>
      cases y with
      | none => exact Or.inl ⟨rfl, rfl⟩
      | some d => exact False.elim h
  | some d1 =>
      cases y with
      | none => exact False.elim h
      | some d2 => exact Or.inr ⟨d1, d2, rfl, rfl, h.1, h.2⟩

theorem newPass_err (now : ℚ) (fk : ℚ) (tk pr : JSNum) (aOpt : Option Animation)
    (rks : List String) (bf : Option ℚ) (ov : Option (List (String × AnimationDataPart)))
    (hne : rks ≠ []) :
    calculateAnimatedValues now fk tk pr aOpt none rks false bf ov = .error () := by
  rw [calculateAnimatedValues_new]
  exact mapParts_err _ (fun rk => calcPart_none fk tk _ ov rk) rks hne

theorem oldPass_err (now : ℚ) (fk : ℚ) (tk pr : JSNum) (oa : Option Animation)
    (rks : List String) (bf : Option ℚ)
    (hg : oldContributes now bf oa = true) (hne : rks ≠ []) :
    calculateAnimatedValues now fk tk pr oa none rks true bf none = .error () := by
  rw [calculateAnimatedValues_old_run _ _ _ _ _ _ _ _ _ hg]
  exact mapParts_err _ (fun rk => calcPart_none fk tk _ none rk) rks hne

theorem oldPass_ok (now : ℚ) (fk : ℚ) (tk pr : JSNum) (oa : Option Animation)
    (od : AnimationData) (rks : List String) (bf : Option ℚ)
    (hg : oldContributes now bf oa = true) :
    calculateAnimatedValues now fk tk pr oa (some od) rks true bf none
      = .ok (rks.map fun s =>
          (s, calcPartVal od fk tk (calculateProgressBetweenKeys fk tk pr) none s)) := by
  rw [calculateAnimatedValues_old_run _ _ _ _ _ _ _ _ _ hg]
  exact mapParts_of_ok _ _ (fun s => calcPart_some od fk tk _ none s) rks

theorem newPass_congr (now : ℚ) (fk : ℚ) (tk pr : JSNum) (a : Animation)
    (D1 D2 : Option AnimationData) (rks1 rks2 : List String) (p : String)
    (ov1 ov2 : List (String × AnimationDataPart))
    (hag : agreesOn p D1 D2)
    (hov : lookupPart ov1 p = lookupPart ov2 p)
    (h1 : p ∈ rks1) (h2 : p ∈ rks2) :
    outputFor (calculateAnimatedValues now fk tk pr (some a) D1 rks1 false none (some ov1)) p
      = outputFor (calculateAnimatedValues now fk tk pr (some a) D2 rks2 false none (some ov2)) p := by
  rcases agreesOn_cases p D1 D2 hag with ⟨hA, hB⟩ | ⟨d1, d2, hA, hB, hkk, he⟩
  · rw [hA, hB, newPass_err now fk tk pr (some a) rks1 none (some ov1) (List.ne_nil_of_mem h1),
      newPass_err now fk tk pr (some a) rks2 none (some ov2) (List.ne_nil_of_mem h2)]
  · rw [hA, hB, calculateAnimatedValues_new, calculateAnimatedValues_new,
      mapParts_of_ok _ (fun s =>
          calcPartVal d1 fk tk (calculateProgressBetweenKeys fk tk pr) (some ov1) s)
        (fun s => calcPart_some d1 fk tk _ (some ov1) s) rks1,
      mapParts_of_ok _ (fun s =>
          calcPartVal d2 fk tk (calculateProgressBetweenKeys fk tk pr) (some ov2) s)
        (fun s => calcPart_some d2 fk tk _ (some ov2) s) rks2]
    simp only [outputFor]
    rw [lookupPart_graph _ p rks1 h1, lookupPart_graph _ p rks2 h2,
      calcPartVal_congr d1 d2 fk tk _ (some ov1) (some ov2) p hkk he (by simpa using hov)]

theorem facade_none_data (now : ℚ) (a : Animation) (oldA : Option Animation)
    (anims : String → Option AnimationData) (rks : List String)
    (hne : rks ≠ []) (hdata : anims a.name = none) :
    getAnimationValues now (some a) oldA anims rks = .error () := by
  rw [getAnimationValues_eq now a oldA anims rks hne, hdata]
  cases hX : calculateAnimatedValues now
      (getAnimationKeys now oldA (oldA.bind fun o => anims o.name) true).fromKey
      (getAnimationKeys now oldA (oldA.bind fun o => anims o.name) true).toKey
      (getAnimationKeys now oldA (oldA.bind fun o => anims o.name) true).progress
      oldA (oldA.bind fun o => anims o.name) rks true
      (some (getAnimationKeys now (some a) none false).fromKey) none with
  | error e => cases e; rfl
  | ok v => exact newPass_err now _ _ _ (some a) rks none (some v) hne

/-!
## Claim C10 — per-part noninterference
-/

/-- C10: the output for a requested part `p` depends only on the two
descriptors' timing fields and on the tables' keys and entries for `p`: two
calls at the same reference time with the same descriptors, whose keyframe
tables (for both the current and the previous animation name) have the same
percentage keys and agree on every entry for `p`, and whose request lists
both contain `p`, produce the same observable output for `p` — including
whether the call raises — regardless of the entries for other parts and of
which other parts are requested. -/
theorem c10_part_noninterference (now : ℚ) (animation oldAnimation : Option Animation)
    (anims1 anims2 : String → Option AnimationData) (rks1 rks2 : List String) (p : String)
    (hc : agreesOn p (animation.bind fun a => anims1 a.name)
        (animation.bind fun a => anims2 a.name))
    (ho : agreesOn p (oldAnimation.bind fun a => anims1 a.name)
        (oldAnimation.bind fun a => anims2 a.name))
    (h1 : p ∈ rks1) (h2 : p ∈ rks2) :
    outputFor (getAnimationValues now animation oldAnimation anims1 rks1) p
      = outputFor (getAnimationValues now animation oldAnimation anims2 rks2) p := by
  have hne1 := List.ne_nil_of_mem h1
  have hne2 := List.ne_nil_of_mem h2
  cases animation with
  | none => simp [getAnimationValues, outputFor, lookupPart]
  | some a =>
      simp only [Option.some_bind] at hc
      rcases agreesOn_cases p _ _ hc with ⟨hA1, hA2⟩ | ⟨dc1, dc2, hA1, hA2, hck, hce⟩
      · rw [facade_none_data now a oldAnimation anims1 rks1 hne1 hA1,
            facade_none_data now a oldAnimation anims2 rks2 hne2 hA2]
      · rw [getAnimationValues_eq now a oldAnimation anims1 rks1 hne1,
            getAnimationValues_eq now a oldAnimation anims2 rks2 hne2, hA1, hA2,
            getAnimationKeys_congr now (some a) false dc1 dc2 hck]
        cases oldAnimation with
        | none =>
            simp only [Option.none_bind]
            rw [calculateAnimatedValues_old_skip _ _ _ _ _ _ _ _ _ (oldContributes_none _ _),
                calculateAnimatedValues_old_skip _ _ _ _ _ _ _ _ _ (oldContributes_none _ _)]
            exact newPass_congr now _ _ _ a (some dc1) (some dc2) rks1 rks2 p [] []
              ⟨hck, hce⟩ rfl h1 h2
        | some o =>
            simp only [Option.some_bind] at ho ⊢
            rcases agreesOn_cases p _ _ ho with ⟨hB1, hB2⟩ | ⟨od1, od2, hB1, hB2, hok, hoe⟩
            · rw [hB1, hB2]
              cases hg : oldContributes now
                  (some (getAnimationKeys now (some a) (some dc2) false).fromKey) (some o) with
              | false =>
                  rw [calculateAnimatedValues_old_skip _ _ _ _ _ _ _ _ _ hg,
                      calculateAnimatedValues_old_skip _ _ _ _ _ _ _ _ _ hg]
                  exact newPass_congr now _ _ _ a (some dc1) (some dc2) rks1 rks2 p [] []
                    ⟨hck, hce⟩ rfl h1 h2
              | true =>
                  rw [oldPass_err _ _ _ _ _ _ _ hg hne1, oldPass_err _ _ _ _ _ _ _ hg hne2]
            · rw [hB1, hB2, getAnimationKeys_congr now (some o) true od1 od2 hok]
              cases hg : oldContributes now
                  (some (getAnimationKeys now (some a) (some dc2) false).fromKey) (some o) with
              | false =>
                  rw [calculateAnimatedValues_old_skip _ _ _ _ _ _ _ _ _ hg,
                      calculateAnimatedValues_old_skip _ _ _ _ _ _ _ _ _ hg]
                  exact newPass_congr now _ _ _ a (some dc1) (some dc2) rks1 rks2 p [] []
                    ⟨hck, hce⟩ rfl h1 h2
              | true =>
                  rw [oldPass_ok _ _ _ _ _ od1 _ _ hg, oldPass_ok _ _ _ _ _ od2 _ _ hg]
                  refine newPass_congr now _ _ _ a (some dc1) (some dc2) rks1 rks2 p _ _
                    ⟨hck, hce⟩ ?_ h1 h2
                  rw [lookupPart_graph _ p rks1 h1, lookupPart_graph _ p rks2 h2,
                    calcPartVal_congr od1 od2 _ _ _ none none p hok hoe rfl]

/-- C10, witness: two engine calls at progress 50 whose tables agree on the
"head" entries (keys `{0, 40}`) but differ on the "arm"/"leg" entries, with
different request lists both containing "head", produce the same output for
"head". -/
theorem c10_part_noninterference_witness :
    outputFor (getAnimationValues 1500 (some ⟨"a", 1000, 1000, none⟩) none
      (fun n => if n = "a" then
          some [((0:ℚ), [("head", ⟨.num 0, .num 0, .num 0⟩), ("arm", ⟨.num 1, .num 1, .num 1⟩)]),
                ((40:ℚ), [("head", ⟨.num 10, .num 0, .num 0⟩)])]
        else none) ["head"]) "head"
    = outputFor (getAnimationValues 1500 (some ⟨"a", 1000, 1000, none⟩) none
      (fun n => if n = "a" then
          some [((0:ℚ), [("head", ⟨.num 0, .num 0, .num 0⟩), ("arm", ⟨.num 2, .num 2, .num 2⟩)]),
                ((40:ℚ), [("head", ⟨.num 10, .num 0, .num 0⟩), ("leg", ⟨.num 3, .num 3, .num 3⟩)])]
        else none) ["arm", "head"]) "head" := by
  refine c10_part_noninterference 1500 (some ⟨"a", 1000, 1000, none⟩) none _ _
    ["head"] ["arm", "head"] "head" ?_ ?_ (by simp) (by simp)
  · have hagree : agreesOn "head"
        (some [((0:ℚ), [("head", ⟨.num 0, .num 0, .num 0⟩), ("arm", ⟨.num 1, .num 1, .num 1⟩)]),
               ((40:ℚ), [("head", ⟨.num 10, .num 0, .num 0⟩)])])
        (some [((0:ℚ), [("head", ⟨.num 0, .num 0, .num 0⟩), ("arm", ⟨.num 2, .num 2, .num 2⟩)]),
               ((40:ℚ), [("head", ⟨.num 10, .num 0, .num 0⟩), ("leg", ⟨.num 3, .num 3, .num 3⟩)])]) := by
      refine ⟨by simp [keysOf], ?_⟩
      intro k hkk
      simp only [keysOf, List.map_cons, List.map_nil, List.mem_cons, List.not_mem_nil,
        or_false] at hkk
      rcases hkk with rfl | rfl <;>
        norm_num [partEntry, lookupFrame, lookupPart, List.find?]
    simpa using hagree
  · simp [agreesOn, Option.none_bind]
